import Mathlib

/-!
Shallow embedding of the two orchestration notebooks of this repository:
the MRS pipeline notebook (src/unnamed/part_000) and the NIRISS AMI
pipeline notebook (src/notebooks/niriss_ami_binary/2_niriss_ami_binary.ipynb).

The notebooks' own logic is: conditional downloads/extraction guarded by
os.path.exists, loops over globbed file lists invoking external pipeline
stages, Python string manipulation (str.split / str.replace) to derive
output names, a header-fix loop writing `_fix` copies of FITS files, and
an association-file write.  External library calls (pipeline stages,
fringe fitting, tar/zip extraction) are modelled as opaque trace events;
the Python string functions are modelled exactly (non-overlapping,
leftmost-first semantics of str.split, str.replace and str.count).
-/

namespace Jdat

/-! ## Python string primitives (on `List Char`, fuel-driven) -/

/-- Python `s.split(sep)` for nonempty `sep`: scan left to right; at each
position, if `sep` matches, cut a field and resume after the separator.
The fuel is the length of the scanned list; each step consumes at least
one character, so the fuel never runs out when initialised that way. -/
def splitAux (pat : List Char) : Nat → List Char → List Char → List (List Char)
  | _, [], acc => [acc.reverse]
  | 0, c :: rest, acc => [acc.reverse ++ c :: rest]
  | Nat.succ n, c :: rest, acc =>
    if pat.isPrefixOf (c :: rest) then
      acc.reverse :: splitAux pat n ((c :: rest).drop pat.length) []
    else
      splitAux pat n rest (c :: acc)

/-- Python `s.split(sep)` on strings (for the nonempty separators used in
the notebooks: `"."`, `"20210413_"`, `"_mirisim"`, `"/"`). -/
def pySplit (s sep : String) : List String :=
  (splitAux sep.data s.data.length s.data []).map fun l => ⟨l⟩

/-- Python `s.count(sub)`: number of non-overlapping occurrences, scanning
left to right (same scan as `splitAux`). -/
def countAux (pat : List Char) : Nat → List Char → Nat
  | _, [] => 0
  | 0, _ :: _ => 0
  | Nat.succ n, c :: rest =>
    if pat.isPrefixOf (c :: rest) then
      1 + countAux pat n ((c :: rest).drop pat.length)
    else
      countAux pat n rest

/-- Python `s.count(sub)` on strings. -/
def pyCount (s pat : String) : Nat :=
  countAux pat.data s.data.length s.data

/-- Python `s.replace(old, new)` for nonempty `old`: replace every
non-overlapping occurrence, scanning left to right. -/
def replaceAux (pat rep : List Char) : Nat → List Char → List Char
  | _, [] => []
  | 0, c :: rest => c :: rest
  | Nat.succ n, c :: rest =>
    if pat.isPrefixOf (c :: rest) then
      rep ++ replaceAux pat rep n ((c :: rest).drop pat.length)
    else
      c :: replaceAux pat rep n rest

/-- Python `s.replace(old, new)` on strings. -/
def pyReplace (s pat rep : String) : String :=
  ⟨replaceAux pat.data rep.data s.data.length s.data⟩

/-- Python tuple destructuring `a, b = l`: succeeds exactly on a
two-element list, otherwise raises ValueError. -/
def unpack2 (l : List String) : Except String (String × String) :=
  match l with
  | [a, b] => .ok (a, b)
  | _ => .error "ValueError"

/-- `pathlib.Path(p).name`: the final path component. -/
def pathName (p : String) : String :=
  (pySplit p "/").getLastD ""

/-! ## Events and the filesystem model -/

/-- External effects performed by notebook cells, in program order. -/
inductive Event where
  | retrieve (url dest : String)
  | extract (archive : String)
  | mkdirE (dir : String)
  | runStage (stage input : String)
  | runTool (tool arg : String)
  | setval (file key : String)
  | fitFringes (input oitdir oifdir : String)
  | calibrate (targ cal : String)
  | writeFile (name : String)
deriving DecidableEq, Repr

/-- A filesystem: path (as the notebook spells it, after `Path`
normalisation) to abstract file content. -/
abbrev FS := String → Option String

/-- `Path('./x')` and `os.path` treat `./x` and `x` as the same entry. -/
def normP (s : String) : String :=
  if "./".data.isPrefixOf s.data then ⟨s.data.drop 2⟩ else s

/-- `os.path.exists`. -/
def fsExists (fs : FS) (p : String) : Bool :=
  (fs (normP p)).isSome

/-- Effect of one event on the filesystem.  `retrieve` creates/overwrites
its destination with the downloaded content; `extract` adds the archive's
contents, given by the oracle `ext` (the archives' contents are external
data, not determined by this repository); pipeline stages write their
products externally, which no claim about the notebooks' own state needs,
so they leave this model unchanged. -/
def applyEvent (ext : String → String → Option String) (fs : FS) : Event → FS
  | .retrieve url dest => fun n => if n = normP dest then some ("url:" ++ url) else fs n
  | .extract a => fun n => match ext a n with | some c => some c | none => fs n
  | _ => fs

/-- Run a trace of events over the filesystem. -/
def applyTrace (ext : String → String → Option String) (fs : FS) (tr : List Event) : FS :=
  tr.foldl (applyEvent ext) fs

/-- The inputs handed to `.run` of a given pipeline stage, in trace order. -/
def runsOf (stage : String) (tr : List Event) : List String :=
  tr.filterMap fun e =>
    match e with
    | .runStage s f => if s == stage then some f else none
    | _ => none

/-- Retrieval events targeting a given destination file. -/
def retrievalsOf (dest : String) (tr : List Event) : List Event :=
  tr.filter fun e =>
    match e with
    | .retrieve _ d => normP d == normP dest
    | _ => false

/-- Destinations of all retrieval events, in order. -/
def retrieveDests (tr : List Event) : List String :=
  tr.filterMap fun e =>
    match e with
    | .retrieve _ d => some (normP d)
    | _ => none

/-- Extraction events in a trace. -/
def extractsOf (tr : List Event) : List Event :=
  tr.filter fun e =>
    match e with
    | .extract _ => true
    | _ => false

/-- Names written by the notebook itself (`open(...).write`, `writeto`). -/
def writesOf (tr : List Event) : List String :=
  tr.filterMap fun e =>
    match e with
    | .writeFile n => some n
    | _ => none

/-- A per-file loop body yields the events it performed and, when a Python
exception is raised, the error; the loop stops at the first error, which
propagates out of the cell (the notebooks install no handler). -/
def runLoop (body : String → List Event × Option String) :
    List String → List Event × Option String
  | [] => ([], none)
  | f :: rest =>
    match body f with
    | (ev, some e) => (ev, some e)
    | (ev, none) =>
      let (ev2, r) := runLoop body rest
      (ev ++ ev2, r)

/-- Sequential cells of a notebook: an uncaught exception in one cell
stops execution there. -/
def seqCells : List (List Event × Option String) → List Event × Option String
  | [] => ([], none)
  | (ev, some e) :: _ => (ev, some e)
  | (ev, none) :: rest =>
    let (ev2, r) := seqCells rest
    (ev ++ ev2, r)

/-! ## MRS notebook (src/unnamed/part_000) -/

def tgz1 : String := "20210413_120546_mirisim.tar.gz"
def tgz2 : String := "20210413_123047_mirisim.tar.gz"
def tgz3 : String := "20210413_125354_mirisim.tar.gz"
def mrsUrlBase : String :=
  "https://data.science.stsci.edu/redirect/JWST/jwst-data_analysis_tools/MRS_Mstar_analysis/"
def dir1 : String := "20210413_120546_mirisim/"
def dir2 : String := "20210413_123047_mirisim/"
def dir3 : String := "20210413_125354_mirisim/"

/-- The MRS download cell: three independent exists-guarded retrievals. -/
def mrsDownloadCell (fs : FS) : List Event :=
  (if fsExists fs tgz1 then [] else [.retrieve (mrsUrlBase ++ tgz1) ("./" ++ tgz1)]) ++
  (if fsExists fs tgz2 then [] else [.retrieve (mrsUrlBase ++ tgz2) ("./" ++ tgz2)]) ++
  (if fsExists fs tgz3 then [] else [.retrieve (mrsUrlBase ++ tgz3) ("./" ++ tgz3)])

/-- The MRS untar cell: three extractions, each guarded by the existence
of the extracted directory (independently of the archive file). -/
def mrsUntarCell (fs : FS) : List Event :=
  (if fsExists fs dir1 then [] else [.extract ("./" ++ tgz1)]) ++
  (if fsExists fs dir2 then [] else [.extract ("./" ++ tgz2)]) ++
  (if fsExists fs dir3 then [] else [.extract ("./" ++ tgz3)])

/-- Filename parsing in the Detector1 loop body:
`baseshort, remaindershort = shortfile.split('.')`;
`beforestuffshort, dateafterstuffshort = shortfile.split('20210413_')`;
`datestringshort, afterstuffshort = dateafterstuffshort.split('_mirisim')`.
Returns `(base, datestring)` used for `output_file`. -/
def mrsParseDet1 (f : String) : Except String (String × String) := do
  let p1 ← unpack2 (pySplit f ".")      -- baseshort, remaindershort
  let p2 ← unpack2 (pySplit f "20210413_")  -- beforestuffshort, dateafterstuffshort
  let p3 ← unpack2 (pySplit p2.2 "_mirisim")  -- datestringshort, afterstuffshort
  pure (p1.1, p3.1)  -- (baseshort, datestringshort), as used in output_file

/-- Configuration with which `Detector1Pipeline.run` is invoked in the MRS
notebook (set on the shared pipeline object each iteration). -/
structure Det1Config where
  refpixSkip : Bool
  outputFile : String
deriving DecidableEq, Repr

/-- The Detector1 configuration for a given input file of the MRS loops. -/
def mrsDet1Config (f : String) : Except String Det1Config := do
  let (base, datestring) ← mrsParseDet1 f
  pure { refpixSkip := true, outputFile := base ++ datestring }

/-- One iteration of an MRS Detector1 loop: parse the filename (a failed
tuple unpacking raises ValueError before `run`), then run the stage. -/
def mrsDet1Body (f : String) : List Event × Option String :=
  match mrsParseDet1 f with
  | .error e => ([], some e)
  | .ok _ => ([.runStage "Detector1" f], none)

/-- Glob patterns of the MRS Spec2 cell inputs (the stage-1 products). -/
def mrsSpec2ShortGlob : String := "det_image_*_MIRIFUSHORT_*_rate.fits"
def mrsSpec2LongGlob : String := "det_image_*_MIRIFULONG_*_rate.fits"

/-- The hardcoded file of the short Spec2 loop that gets its level-2b cube
built. -/
def hardShort : String := "det_image_seq1_MIRIFUSHORT_12LONGexp1125354_rate.fits"
/-- The hardcoded file of the long Spec2 loop that gets its level-2b cube
built. -/
def hardLong : String := "det_image_seq1_MIRIFULONG_34SHORTexp1120546_rate.fits"

/-- Configuration with which `Spec2Pipeline.run` is invoked (fresh
pipeline object per iteration; `cube_build.skip` is left at its default
`False` only when the filename equals the loop's hardcoded name, and is
set to `True` otherwise). -/
structure Spec2Config where
  straylightSkip : Bool
  cubeBuildSkip : Bool
  extract1dSkip : Bool
  outputFile : String
deriving DecidableEq, Repr

/-- The Spec2 configuration for a given input of a loop with hardcoded
cube-build file `hard`. -/
def mrsSpec2Config (hard : String) (f : String) : Except String Spec2Config := do
  let (base, _remainder) ← unpack2 (pySplit f ".")
  pure { straylightSkip := true
         cubeBuildSkip := f != hard
         extract1dSkip := true
         outputFile := base }

/-- One iteration of an MRS Spec2 loop: the tuple unpacking of
`split('.')` precedes `run`. -/
def mrsSpec2Body (f : String) : List Event × Option String :=
  match unpack2 (pySplit f ".") with
  | .error e => ([], some e)
  | .ok _ => ([.runStage "Spec2" f], none)

/-- The Level-2b cube files hardcoded in the photutils cell. -/
def lCubeFile : String := "det_image_seq1_MIRIFULONG_34SHORTexp1120546_s3d.fits"
def sCubeFile : String := "det_image_seq1_MIRIFUSHORT_12LONGexp1125354_s3d.fits"

/-- Glob pattern of the header-fix cell. -/
def mrsCalGlob : String := "det_image_*_cal.fits"

/-- Output name of the header-fix loop:
`base, remainder = thisfile.split('.')`; `outfilename = base + '_fix.' + remainder`. -/
def fixOutName (f : String) : Except String String := do
  let (base, remainder) ← unpack2 (pySplit f ".")
  pure (base ++ "_fix." ++ remainder)

/-- One iteration of the header-fix loop, at the trace level: write the
`_fix` copy (`writeto(outfilename, overwrite=True)`). -/
def mrsHeaderFixBody (f : String) : List Event × Option String :=
  match fixOutName f with
  | .error e => ([], some e)
  | .ok out => ([.writeFile out], none)

/-- The association file written by the notebook itself via `open`/`write`. -/
def asnName : String := "for_spec3_all.json"

/-- The association cell: `asn_from_list` is pure library code; the
notebook writes its dump to `for_spec3_all.json`. -/
def mrsAsnCell : List Event := [.writeFile asnName]

/-- The Spec3 cell: one run of `Spec3Pipeline` on the association file. -/
def mrsSpec3Cell : List Event := [.runStage "Spec3" asnName]

/-- The full MRS notebook, as a sequence of cells over the globbed input
lists (display-only cells emit no external events). -/
def mrsNotebook (fs : FS) (shortfiles longfiles short2files long2files calfiles :
    List String) : List Event × Option String :=
  seqCells
    [ (mrsDownloadCell fs, none),
      (mrsUntarCell fs, none),
      runLoop mrsDet1Body shortfiles,
      runLoop mrsDet1Body longfiles,
      runLoop mrsSpec2Body short2files,
      runLoop mrsSpec2Body long2files,
      runLoop mrsHeaderFixBody calfiles,
      (mrsAsnCell, none),
      (mrsSpec3Cell, none) ]

/-! ## NIRISS AMI notebook (2_niriss_ami_binary.ipynb) -/

def nirissZip : String := "niriss_ami_binary2_inflight.zip"
def boxlink : String :=
  "https://data.science.stsci.edu/redirect/JWST/jwst-data_analysis_tools/niriss_ami_binary/niriss_ami_binary2_inflight.zip"

/-- The NIRISS download cell: `if not os.path.exists(boxfile):` download
and, in the same branch, extract.  (`Path('./x')` normalises to `x`.) -/
def nirissDownloadCell (fs : FS) : List Event :=
  if fsExists fs nirissZip then []
  else [.retrieve boxlink nirissZip, .extract nirissZip]

/-- The output-directory cell. -/
def nirissOutdirCell (fs : FS) (outdir : String) : List Event :=
  if fsExists fs outdir then [] else [.mkdirE outdir]

/-- Configuration of the NIRISS Detector1 run (constant across files). -/
structure NirissDet1Config where
  ipcSkip : Bool
  saveResults : Bool
  saveCalibratedRamp : Bool
  outputDir : String
deriving DecidableEq, Repr

def nirissDet1ConfigOf (outdir : String) (_df : String) : NirissDet1Config :=
  { ipcSkip := true, saveResults := true, saveCalibratedRamp := true,
    outputDir := outdir }

/-- Configuration of the NIRISS Image2 runs (constant across files). -/
structure NirissImage2Config where
  photomSkip : Bool
  resampleSkip : Bool
  saveResults : Bool
  outputDir : String
deriving DecidableEq, Repr

def nirissImage2ConfigOf (outdir : String) (_df : String) : NirissImage2Config :=
  { photomSkip := true, resampleSkip := true, saveResults := true,
    outputDir := outdir }

/-- One iteration of the NIRISS pipeline loop: Detector1 on the uncal
file, then Image2 on `outdir / df.name.replace('uncal', 'rate')`, then
Image2 on `outdir / df.name.replace('uncal', 'rateints')`. -/
def nirissPipelineBlock (outdir : String) (df : String) : List Event :=
  [.runStage "Detector1" df,
   .runStage "Image2" (outdir ++ "/" ++ pyReplace (pathName df) "uncal" "rate"),
   .runStage "Image2" (outdir ++ "/" ++ pyReplace (pathName df) "uncal" "rateints")]

/-- The NIRISS pipeline cell over the globbed `jw*uncal.fits` list. -/
def nirissPipelineCell (outdir : String) (datafiles : List String) : List Event :=
  datafiles.flatMap (nirissPipelineBlock outdir)

/-- The bad-pixel-fix cell: one call of the external `correct_fitsfiles`. -/
def nirissBpfixCell (outdir datasuperdir : String) : List Event :=
  [.runTool "correct_fitsfiles" (outdir ++ " " ++ datasuperdir)]

/-- One iteration of the ImPlaneIA driver loop: two `fits.setval` header
edits, then `main(...)` with `oitdir=datasuperdir/'Saveoit'` and
`oifdir=datasuperdir/'Saveoif'`. -/
def implaneiaBlock (datasuperdir : String) (f : String) : List Event :=
  [.setval (datasuperdir ++ "/" ++ f) "TARGNAME",
   .setval (datasuperdir ++ "/" ++ f) "TARGPROP",
   .fitFringes (datasuperdir ++ "/" ++ f)
     (datasuperdir ++ "/Saveoit") (datasuperdir ++ "/Saveoif")]

/-- The static input list of the ImPlaneIA cell. -/
def mirdatafiles : List String :=
  ["jw01093012001_03102_00001_nis_calints.fits",
   "jw01093015001_03102_00001_nis_calints.fits"]

/-- The ImPlaneIA cell. -/
def implaneiaCell (datasuperdir : String) (files : List String) : List Event :=
  files.flatMap (implaneiaBlock datasuperdir)

/-- The final calibration cell: one `calibrate_oifits` call. -/
def nirissCalibrateCell (datasuperdir : String) : List Event :=
  [.calibrate (datasuperdir ++ "/Saveoif/jw01093012001_03102_00001_nis.oifits")
              (datasuperdir ++ "/Saveoif/jw01093015001_03102_00001_nis.oifits")]

/-- The full NIRISS notebook trace (display-only cells emit no events;
none of its cells raises from the notebook's own string logic). -/
def nirissNotebook (fs : FS) (outdir datasuperdir : String)
    (datafiles : List String) : List Event :=
  nirissDownloadCell fs ++
  nirissOutdirCell fs outdir ++
  nirissPipelineCell outdir datafiles ++
  nirissBpfixCell outdir datasuperdir ++
  implaneiaCell datasuperdir mirdatafiles ++
  nirissCalibrateCell datasuperdir

/-! ## Header-fix cell with FITS content (for the frame condition C9) -/

/-- Abstraction of a FITS HDU list as touched by the header-fix cell: the
`SCI` header's SRCTYPE card, the primary header's TARG_RA/TARG_DEC cards
(coordinates abstracted as integers), and an opaque payload standing for
every other header card and all data extensions. -/
structure FitsFile where
  srctype : String
  targRa : Int
  targDec : Int
  payload : Nat
deriving DecidableEq, Repr

abbrev FitsFS := String → Option FitsFile

/-- One iteration of the header-fix loop over the FITS filesystem:
split the name, open the input, set the three cards on the in-memory
copy, and `writeto(outfilename, overwrite=True)`. -/
def headerFixStep (ra dec : Int) (fs : FitsFS) (f : String) :
    Except String FitsFS := do
  let out ← fixOutName f
  match fs f with
  | none => .error "FileNotFoundError"
  | some hdu =>
    pure fun n =>
      if n = out then some { hdu with srctype := "POINT", targRa := ra, targDec := dec }
      else fs n

/-- The header-fix cell over its globbed file list. -/
def headerFixCell (ra dec : Int) : List String → FitsFS → Except String FitsFS
  | [], fs => .ok fs
  | f :: rest, fs => do headerFixCell ra dec rest (← headerFixStep ra dec fs f)

/-- Whether an exception was raised. -/
def isOkE {α : Type} : Except String α → Bool
  | .ok _ => true
  | .error _ => false

instance {ε α : Type} [DecidableEq ε] [DecidableEq α] : DecidableEq (Except ε α) :=
  fun x y =>
    match x, y with
    | .ok a, .ok b =>
      if h : a = b then isTrue (by rw [h]) else isFalse (by simp [h])
    | .error a, .error b =>
      if h : a = b then isTrue (by rw [h]) else isFalse (by simp [h])
    | .ok _, .error _ => isFalse (by simp)
    | .error _, .ok _ => isFalse (by simp)

/-! ## Lemmas on the Python string primitives -/

lemma str_ext {s t : String} (h : s.data = t.data) : s = t := by
  cases s; cases t; exact congrArg String.mk h

lemma str_data_append (s t : String) : (s ++ t).data = s.data ++ t.data := rfl

lemma str_length_data (s : String) : s.length = s.data.length := rfl

/-- The field scan of `splitAux` and the occurrence scan of `countAux`
walk the input identically, so the number of fields is the number of
separator occurrences plus one. -/
lemma splitAux_length (pat : List Char) :
    ∀ (n : Nat) (s acc : List Char),
      (splitAux pat n s acc).length = countAux pat n s + 1 := by
  intro n
  induction n with
  | zero =>
    intro s acc
    cases s <;> simp [splitAux, countAux]
  | succ n ih =>
    intro s acc
    cases s with
    | nil => simp [splitAux, countAux]
    | cons c rest =>
      by_cases h : pat.isPrefixOf (c :: rest)
      · simp [splitAux, countAux, h, ih]
        omega
      · simp [splitAux, countAux, h, ih]

/-- Python: `len(s.split(sep)) == s.count(sep) + 1`. -/
lemma pySplit_length (s sep : String) :
    (pySplit s sep).length = pyCount s sep + 1 := by
  simp [pySplit, pyCount, splitAux_length]

lemma unpack2_ok_shape {l : List String} {p : String × String}
    (h : unpack2 l = .ok p) : l = [p.1, p.2] := by
  match l with
  | [] => simp [unpack2] at h
  | [a] => simp [unpack2] at h
  | [a, b] => simp [unpack2] at h; simp [← h]
  | a :: b :: c :: t => simp [unpack2] at h

lemma unpack2_error_shape {l : List String} {e : String}
    (h : unpack2 l = .error e) : e = "ValueError" := by
  match l with
  | [] => simpa [unpack2] using h.symm
  | [a] => simpa [unpack2] using h.symm
  | [a, b] => simp [unpack2] at h
  | a :: b :: c :: t => simpa [unpack2] using h.symm

lemma unpack2_isOk_iff (l : List String) :
    isOkE (unpack2 l) = true ↔ l.length = 2 := by
  match l with
  | [] => simp [unpack2, isOkE]
  | [a] => simp [unpack2, isOkE]
  | [a, b] => simp [unpack2, isOkE]
  | a :: b :: c :: t => simp [unpack2, isOkE]

/-- Python: the tuple unpacking `a, b = s.split(sep)` succeeds exactly
when `sep` occurs exactly once in `s`. -/
lemma unpack2_pySplit_iff (s sep : String) :
    isOkE (unpack2 (pySplit s sep)) = true ↔ pyCount s sep = 1 := by
  rw [unpack2_isOk_iff, pySplit_length]
  omega

/-- A scan that never finds the pattern leaves the input unchanged. -/
lemma replaceAux_id (pat rep : List Char) :
    ∀ (n : Nat) (s : List Char),
      (∀ i, pat.isPrefixOf (s.drop i) = false) → replaceAux pat rep n s = s := by
  intro n
  induction n with
  | zero => intro s h; cases s <;> simp [replaceAux]
  | succ n ih =>
    intro s h
    cases s with
    | nil => simp [replaceAux]
    | cons c rest =>
      have h0 := h 0
      simp only [List.drop_zero] at h0
      simp only [replaceAux, h0, Bool.false_eq_true, if_false, List.cons.injEq, true_and]
      exact ih rest fun i => by simpa using h (i + 1)

/-- Positional no-occurrence beyond the length bound is automatic. -/
lemma no_occ_of_bounded {pat s : List Char} (hp : pat ≠ [])
    (h : ∀ i, i < s.length → pat.isPrefixOf (s.drop i) = false) :
    ∀ i, pat.isPrefixOf (s.drop i) = false := by
  intro i
  by_cases hi : i < s.length
  · exact h i hi
  · have : s.drop i = [] := List.drop_eq_nil_of_le (by omega)
    rw [this]
    cases pat with
    | nil => exact absurd rfl hp
    | cons c cs => rfl

/-- The scan of `replaceAux` over `pre ++ pat ++ tail`, when `pat` does
not match at any position inside `pre` and never matches inside `tail`,
replaces exactly the middle occurrence. -/
lemma replaceAux_split (pat rep : List Char) (hp : pat ≠ []) :
    ∀ (pre : List Char) (n : Nat) (tail : List Char),
      (pre ++ pat ++ tail).length ≤ n →
      (∀ i, i < pre.length → pat.isPrefixOf ((pre ++ pat ++ tail).drop i) = false) →
      (∀ i, pat.isPrefixOf (tail.drop i) = false) →
      replaceAux pat rep n (pre ++ pat ++ tail) = pre ++ rep ++ tail := by
  intro pre
  induction pre with
  | nil =>
    intro n tail hn hpre htail
    cases pat with
    | nil => exact absurd rfl hp
    | cons p ps =>
      cases n with
      | zero => simp at hn
      | succ m =>
        have hpref : (p :: ps).isPrefixOf ((p :: ps) ++ tail) = true :=
          List.isPrefixOf_iff_prefix.mpr (List.prefix_append _ _)
        have hdrop : ((p :: ps) ++ tail).drop (p :: ps).length = tail :=
          List.drop_left _ _
        simp only [List.nil_append, List.cons_append] at hpref hdrop ⊢
        rw [replaceAux, if_pos hpref]
        rw [show ((p :: (ps ++ tail)).drop (p :: ps).length) = tail from hdrop]
        rw [replaceAux_id (p :: ps) rep m tail htail]
  | cons a pre ih =>
    intro n tail hn hpre htail
    cases n with
    | zero => simp at hn
    | succ m =>
      have h0 := hpre 0 (by simp)
      simp only [List.drop_zero, List.cons_append] at h0
      simp only [List.cons_append]
      rw [replaceAux, if_neg (by simp only [h0]; exact Bool.false_ne_true)]
      congr 1
      have hn' : (pre ++ pat ++ tail).length ≤ m := by
        simp only [List.cons_append, List.length_cons] at hn
        omega
      refine ih m tail hn' (fun i hi => ?_) htail
      have := hpre (i + 1) (by simpa using Nat.succ_lt_succ hi)
      simpa using this

/-- `str.replace` on a string of the form `b ++ p ++ t` where `p` occurs
only in the middle position. -/
lemma pyReplace_concat (b p t r : String) (hp : p.data ≠ [])
    (hpre : ∀ i, i < b.length → p.data.isPrefixOf ((b ++ p ++ t).data.drop i) = false)
    (ht : ∀ i, i < t.length → p.data.isPrefixOf (t.data.drop i) = false) :
    pyReplace (b ++ p ++ t) p r = b ++ r ++ t := by
  apply str_ext
  show replaceAux p.data r.data (b ++ p ++ t).data.length (b ++ p ++ t).data
      = (b ++ r ++ t).data
  have hd : (b ++ p ++ t).data = b.data ++ p.data ++ t.data := rfl
  have hd2 : (b ++ r ++ t).data = b.data ++ r.data ++ t.data := rfl
  rw [hd, hd2]
  exact replaceAux_split p.data r.data hp b.data _ t.data le_rfl
    (fun i hi => by have := hpre i hi; rwa [hd] at this)
    (no_occ_of_bounded hp fun i hi => ht i hi)

/-! ## Lemmas on loops, cells and traces -/

lemma runLoop_ok (body : String → List Event × Option String) :
    ∀ (files : List String), (∀ f ∈ files, (body f).2 = none) →
      runLoop body files = (files.flatMap fun f => (body f).1, none) := by
  intro files
  induction files with
  | nil => intro _; rfl
  | cons f rest ih =>
    intro h
    have hf := h f (by simp)
    have hrest := ih fun g hg => h g (by simp [hg])
    rw [runLoop]
    cases hb : body f with
    | mk ev err =>
      rw [hb] at hf
      simp at hf
      subst hf
      simp [hrest, hb]

lemma runLoop_error (body : String → List Event × Option String) :
    ∀ (pre : List String) (f : String) (post : List String),
      (∀ g ∈ pre, (body g).2 = none) → (body f).2 ≠ none →
      runLoop body (pre ++ f :: post) =
        ((pre.flatMap fun g => (body g).1) ++ (body f).1, (body f).2) := by
  intro pre
  induction pre with
  | nil =>
    intro f post _ hf
    rw [List.nil_append, runLoop]
    cases hb : body f with
    | mk ev err =>
      rw [hb] at hf
      cases err with
      | none => simp at hf
      | some e => simp [hb]
  | cons g pre ih =>
    intro f post hpre hf
    have hg := hpre g (by simp)
    rw [List.cons_append, runLoop]
    cases hb : body g with
    | mk ev err =>
      rw [hb] at hg
      simp at hg
      subst hg
      simp [ih f post (fun x hx => hpre x (by simp [hx])) hf, hb]

lemma det1Body_ok {f : String} (h : isOkE (mrsParseDet1 f) = true) :
    mrsDet1Body f = ([.runStage "Detector1" f], none) := by
  unfold mrsDet1Body
  cases hb : mrsParseDet1 f with
  | ok v => rfl
  | error e => rw [hb] at h; simp [isOkE] at h

lemma det1Body_error {f : String} (h : isOkE (mrsParseDet1 f) = false) :
    mrsDet1Body f = ([], some "ValueError") := by
  unfold mrsDet1Body
  cases hb : mrsParseDet1 f with
  | ok v => rw [hb] at h; simp [isOkE] at h
  | error e =>
    have : e = "ValueError" := by
      unfold mrsParseDet1 at hb
      cases h1 : unpack2 (pySplit f ".") with
      | error e1 =>
        rw [h1] at hb; simp [bind, Except.bind] at hb
        exact hb.symm ▸ unpack2_error_shape h1
      | ok v1 =>
        cases h2 : unpack2 (pySplit f "20210413_") with
        | error e2 =>
          rw [h1, h2] at hb; simp [bind, Except.bind] at hb
          exact hb.symm ▸ unpack2_error_shape h2
        | ok v2 =>
          cases h3 : unpack2 (pySplit v2.2 "_mirisim") with
          | error e3 =>
            rw [h1, h2] at hb
            simp only [bind, Except.bind] at hb
            rw [h3] at hb
            simp only [Except.error.injEq] at hb
            exact hb ▸ unpack2_error_shape h3
          | ok v3 =>
            rw [h1, h2] at hb
            simp only [bind, Except.bind] at hb
            rw [h3] at hb
            simp [pure, Except.pure] at hb
    rw [this]

lemma spec2Body_ok {f : String} (h : pyCount f "." = 1) :
    mrsSpec2Body f = ([.runStage "Spec2" f], none) := by
  unfold mrsSpec2Body
  cases hb : unpack2 (pySplit f ".") with
  | ok v => rfl
  | error e =>
    have := (unpack2_pySplit_iff f ".").mpr h
    rw [hb] at this
    simp [isOkE] at this

lemma spec2Body_error {f : String} (h : pyCount f "." ≠ 1) :
    mrsSpec2Body f = ([], some "ValueError") := by
  unfold mrsSpec2Body
  cases hb : unpack2 (pySplit f ".") with
  | ok v =>
    have : isOkE (unpack2 (pySplit f ".")) = true := by rw [hb]; rfl
    exact absurd ((unpack2_pySplit_iff f ".").mp this) h
  | error e => rw [unpack2_error_shape hb]

lemma fixOutName_ok {f : String} (h : pyCount f "." = 1) :
    ∃ b r, pySplit f "." = [b, r] ∧ fixOutName f = .ok (b ++ "_fix." ++ r) := by
  have hl : (pySplit f ".").length = 2 := by rw [pySplit_length, h]
  obtain ⟨b, r, hbr⟩ := List.length_eq_two.mp hl
  exact ⟨b, r, hbr, by unfold fixOutName; rw [hbr]; rfl⟩

lemma headerFixBody_ok {f : String} (h : pyCount f "." = 1) :
    ∃ out, fixOutName f = .ok out ∧ mrsHeaderFixBody f = ([.writeFile out], none) := by
  obtain ⟨b, r, _, hfix⟩ := fixOutName_ok h
  exact ⟨b ++ "_fix." ++ r, hfix, by unfold mrsHeaderFixBody; rw [hfix]⟩

lemma headerFixBody_error {f : String} (h : pyCount f "." ≠ 1) :
    mrsHeaderFixBody f = ([], some "ValueError") := by
  unfold mrsHeaderFixBody fixOutName
  cases hb : unpack2 (pySplit f ".") with
  | ok v =>
    have : isOkE (unpack2 (pySplit f ".")) = true := by rw [hb]; rfl
    exact absurd ((unpack2_pySplit_iff f ".").mp this) h
  | error e => rw [unpack2_error_shape hb]; rfl

lemma runsOf_append (stage : String) (a b : List Event) :
    runsOf stage (a ++ b) = runsOf stage a ++ runsOf stage b :=
  List.filterMap_append _ _ _

lemma runsOf_niriss (outdir : String) (files : List String) :
    runsOf "Detector1" (nirissPipelineCell outdir files) = files := by
  induction files with
  | nil => rfl
  | cons f rest ih =>
    rw [nirissPipelineCell, List.flatMap_cons, runsOf_append]
    rw [nirissPipelineCell] at ih
    rw [ih]
    rfl

lemma runsOf_mrsDet1 (files : List String)
    (h : ∀ f ∈ files, isOkE (mrsParseDet1 f) = true) :
    runsOf "Detector1" (runLoop mrsDet1Body files).1 = files := by
  rw [runLoop_ok mrsDet1Body files
    (fun f hf => by rw [det1Body_ok (h f hf)])]
  induction files with
  | nil => rfl
  | cons f rest ih =>
    rw [List.flatMap_cons, runsOf_append, det1Body_ok (h f (by simp))]
    rw [ih fun g hg => h g (by simp [hg])]
    rfl

/-- Execution phase of an event of the MRS notebook: download/extraction,
Detector1 runs, Spec2 runs, the notebook's own file writes, Spec3. -/
def mrsPhase : Event → Nat
  | .retrieve _ _ => 0
  | .extract _ => 0
  | .mkdirE _ => 0
  | .runStage s _ => if s == "Spec3" then 4 else if s == "Spec2" then 2 else 1
  | .runTool _ _ => 3
  | .setval _ _ => 3
  | .fitFringes _ _ _ => 3
  | .calibrate _ _ => 3
  | .writeFile _ => 3

/-- Execution phase of an event of the NIRISS notebook: download/setup,
pipeline-stage runs, bad-pixel fix, ImPlaneIA, final calibration. -/
def nirissPhase : Event → Nat
  | .retrieve _ _ => 0
  | .extract _ => 0
  | .mkdirE _ => 0
  | .runStage _ _ => 1
  | .runTool _ _ => 2
  | .setval _ _ => 3
  | .fitFringes _ _ _ => 3
  | .writeFile _ => 3
  | .calibrate _ _ => 4

lemma pairwise_mono_of_const {p : Event → Nat} {l : List Event} {k : Nat}
    (h : ∀ e ∈ l, p e = k) : l.Pairwise fun a b => p a ≤ p b := by
  induction l with
  | nil => exact List.Pairwise.nil
  | cons e rest ih =>
    refine List.Pairwise.cons (fun b hb => ?_) (ih fun x hx => h x (by simp [hx]))
    rw [h e (by simp), h b (by simp [hb])]

/-- Prepend a constant-phase chunk to a phase-sorted trace whose phases
all lie at or above the chunk's phase. -/
lemma pairwise_step {p : Event → Nat} {l₁ l₂ : List Event} {k j : Nat}
    (h₁ : ∀ e ∈ l₁, p e = k) (hkj : k ≤ j)
    (h₂ : List.Pairwise (fun a b => p a ≤ p b) l₂)
    (hlow : ∀ e ∈ l₂, j ≤ p e) :
    List.Pairwise (fun a b => p a ≤ p b) (l₁ ++ l₂) ∧
      ∀ e ∈ l₁ ++ l₂, k ≤ p e := by
  constructor
  · exact List.pairwise_append.mpr ⟨pairwise_mono_of_const h₁, h₂,
      fun a ha b hbm => (h₁ a ha) ▸ le_trans hkj (hlow b hbm)⟩
  · intro e he
    rcases List.mem_append.mp he with h | h
    · exact (h₁ e h).ge
    · exact le_trans hkj (hlow e h)

lemma mem_guard {b : Prop} [Decidable b] {x e : Event}
    (h : e ∈ if b then ([] : List Event) else [x]) : e = x := by
  split at h
  · simp at h
  · simpa using h

lemma mem_mrsDownloadCell {fs : FS} {e : Event} (h : e ∈ mrsDownloadCell fs) :
    mrsPhase e = 0 := by
  unfold mrsDownloadCell at h
  rcases List.mem_append.mp h with h | h
  · rcases List.mem_append.mp h with h | h <;> rw [mem_guard h] <;> rfl
  · rw [mem_guard h]; rfl

lemma mem_mrsUntarCell {fs : FS} {e : Event} (h : e ∈ mrsUntarCell fs) :
    mrsPhase e = 0 := by
  unfold mrsUntarCell at h
  rcases List.mem_append.mp h with h | h
  · rcases List.mem_append.mp h with h | h <;> rw [mem_guard h] <;> rfl
  · rw [mem_guard h]; rfl

lemma mem_det1Body {f : String} {e : Event} (h : e ∈ (mrsDet1Body f).1) :
    e = .runStage "Detector1" f := by
  unfold mrsDet1Body at h
  cases hb : mrsParseDet1 f <;> rw [hb] at h <;> simp_all

lemma mem_spec2Body {f : String} {e : Event} (h : e ∈ (mrsSpec2Body f).1) :
    e = .runStage "Spec2" f := by
  unfold mrsSpec2Body at h
  cases hb : unpack2 (pySplit f ".") <;> rw [hb] at h <;> simp_all

lemma mem_headerFixBody {f : String} {e : Event} (h : e ∈ (mrsHeaderFixBody f).1) :
    ∃ o, fixOutName f = .ok o ∧ e = .writeFile o := by
  unfold mrsHeaderFixBody at h
  cases hb : fixOutName f <;> rw [hb] at h <;> simp_all

lemma runsOf_mrsSpec2 (files : List String)
    (h : ∀ f ∈ files, pyCount f "." = 1) :
    runsOf "Spec2" (runLoop mrsSpec2Body files).1 = files := by
  rw [runLoop_ok mrsSpec2Body files
    (fun f hf => by rw [spec2Body_ok (h f hf)])]
  induction files with
  | nil => rfl
  | cons f rest ih =>
    rw [List.flatMap_cons, runsOf_append, spec2Body_ok (h f (by simp))]
    rw [ih fun g hg => h g (by simp [hg])]
    rfl

/-- Under parse-success hypotheses the MRS notebook raises nothing and
its trace is the concatenation of its cells' traces in cell order. -/
lemma mrsNotebook_ok (fs : FS) (sf lf s2 l2 cf : List String)
    (h1 : ∀ f ∈ sf, isOkE (mrsParseDet1 f) = true)
    (h2 : ∀ f ∈ lf, isOkE (mrsParseDet1 f) = true)
    (h3 : ∀ f ∈ s2, pyCount f "." = 1)
    (h4 : ∀ f ∈ l2, pyCount f "." = 1)
    (h5 : ∀ f ∈ cf, pyCount f "." = 1) :
    mrsNotebook fs sf lf s2 l2 cf =
      (mrsDownloadCell fs ++ (mrsUntarCell fs ++
        ((sf.flatMap fun f => (mrsDet1Body f).1) ++
        ((lf.flatMap fun f => (mrsDet1Body f).1) ++
        ((s2.flatMap fun f => (mrsSpec2Body f).1) ++
        ((l2.flatMap fun f => (mrsSpec2Body f).1) ++
        ((cf.flatMap fun f => (mrsHeaderFixBody f).1) ++
        (mrsAsnCell ++ mrsSpec3Cell))))))), none) := by
  have r1 := runLoop_ok mrsDet1Body sf fun f hf => by rw [det1Body_ok (h1 f hf)]
  have r2 := runLoop_ok mrsDet1Body lf fun f hf => by rw [det1Body_ok (h2 f hf)]
  have r3 := runLoop_ok mrsSpec2Body s2 fun f hf => by rw [spec2Body_ok (h3 f hf)]
  have r4 := runLoop_ok mrsSpec2Body l2 fun f hf => by rw [spec2Body_ok (h4 f hf)]
  have r5 := runLoop_ok mrsHeaderFixBody cf fun f hf => by
    obtain ⟨o, _, hbody⟩ := headerFixBody_ok (h5 f hf)
    rw [hbody]
  unfold mrsNotebook
  rw [r1, r2, r3, r4, r5]
  simp [seqCells]

lemma mrsTrace_pairwise (fs : FS) (sf lf s2 l2 cf : List String)
    (h1 : ∀ f ∈ sf, isOkE (mrsParseDet1 f) = true)
    (h2 : ∀ f ∈ lf, isOkE (mrsParseDet1 f) = true)
    (h3 : ∀ f ∈ s2, pyCount f "." = 1)
    (h4 : ∀ f ∈ l2, pyCount f "." = 1)
    (h5 : ∀ f ∈ cf, pyCount f "." = 1) :
    List.Pairwise (fun a b => mrsPhase a ≤ mrsPhase b)
      (mrsNotebook fs sf lf s2 l2 cf).1 := by
  rw [mrsNotebook_ok fs sf lf s2 l2 cf h1 h2 h3 h4 h5]
  have g9 : ∀ e ∈ mrsSpec3Cell, mrsPhase e = 4 := by
    intro e he; simp [mrsSpec3Cell] at he; subst he; rfl
  have g8 : ∀ e ∈ mrsAsnCell, mrsPhase e = 3 := by
    intro e he; simp [mrsAsnCell] at he; subst he; rfl
  have gE : ∀ e ∈ (cf.flatMap fun f => (mrsHeaderFixBody f).1), mrsPhase e = 3 := by
    intro e he; rw [List.mem_flatMap] at he; obtain ⟨f, _, hef⟩ := he
    obtain ⟨o, _, rfl⟩ := mem_headerFixBody hef; rfl
  have gD : ∀ (l : List String) (e : Event),
      e ∈ (l.flatMap fun f => (mrsSpec2Body f).1) → mrsPhase e = 2 := by
    intro l e he; rw [List.mem_flatMap] at he; obtain ⟨f, _, hef⟩ := he
    rw [mem_spec2Body hef]; rfl
  have gC : ∀ (l : List String) (e : Event),
      e ∈ (l.flatMap fun f => (mrsDet1Body f).1) → mrsPhase e = 1 := by
    intro l e he; rw [List.mem_flatMap] at he; obtain ⟨f, _, hef⟩ := he
    rw [mem_det1Body hef]; rfl
  have s1 := pairwise_step g8 (by omega) (pairwise_mono_of_const g9)
    fun e he => (g9 e he).ge
  have s2' := pairwise_step gE (by omega) s1.1 s1.2
  have s3 := pairwise_step (gD l2) (by omega) s2'.1 s2'.2
  have s4 := pairwise_step (gD s2) (by omega) s3.1 s3.2
  have s5 := pairwise_step (gC lf) (by omega) s4.1 s4.2
  have s6 := pairwise_step (gC sf) (by omega) s5.1 s5.2
  have s7 := pairwise_step (fun e (he : e ∈ mrsUntarCell fs) => mem_mrsUntarCell he)
    (by omega) s6.1 s6.2
  have s8 := pairwise_step (fun e (he : e ∈ mrsDownloadCell fs) => mem_mrsDownloadCell he)
    (by omega) s7.1 s7.2
  exact s8.1

lemma mem_nirissDownloadCell {fs : FS} {e : Event}
    (h : e ∈ nirissDownloadCell fs) : nirissPhase e = 0 := by
  unfold nirissDownloadCell at h
  split at h
  · simp at h
  · simp at h
    rcases h with rfl | rfl <;> rfl

lemma mem_nirissOutdirCell {fs : FS} {outdir : String} {e : Event}
    (h : e ∈ nirissOutdirCell fs outdir) : nirissPhase e = 0 := by
  unfold nirissOutdirCell at h
  rw [mem_guard h]; rfl

lemma mem_nirissPipelineCell {outdir : String} {files : List String} {e : Event}
    (h : e ∈ nirissPipelineCell outdir files) : nirissPhase e = 1 := by
  rw [nirissPipelineCell, List.mem_flatMap] at h
  obtain ⟨df, _, he⟩ := h
  simp [nirissPipelineBlock] at he
  rcases he with rfl | rfl | rfl <;> rfl

lemma mem_implaneiaCell {d : String} {files : List String} {e : Event}
    (h : e ∈ implaneiaCell d files) : nirissPhase e = 3 := by
  rw [implaneiaCell, List.mem_flatMap] at h
  obtain ⟨f, _, he⟩ := h
  simp [implaneiaBlock] at he
  rcases he with rfl | rfl | rfl <;> rfl

lemma nirissTrace_pairwise (fs : FS) (outdir datasuperdir : String)
    (datafiles : List String) :
    List.Pairwise (fun a b => nirissPhase a ≤ nirissPhase b)
      (nirissNotebook fs outdir datasuperdir datafiles) := by
  unfold nirissNotebook
  simp only [List.append_assoc]
  have g6 : ∀ e ∈ nirissCalibrateCell datasuperdir, nirissPhase e = 4 := by
    intro e he; simp [nirissCalibrateCell] at he; subst he; rfl
  have g4 : ∀ e ∈ nirissBpfixCell outdir datasuperdir, nirissPhase e = 2 := by
    intro e he; simp [nirissBpfixCell] at he; subst he; rfl
  have s1 := pairwise_step
    (fun e (he : e ∈ implaneiaCell datasuperdir mirdatafiles) => mem_implaneiaCell he)
    (by omega) (pairwise_mono_of_const g6) fun e he => (g6 e he).ge
  have s2' := pairwise_step g4 (by omega) s1.1 s1.2
  have s3 := pairwise_step
    (fun e (he : e ∈ nirissPipelineCell outdir datafiles) => mem_nirissPipelineCell he)
    (by omega) s2'.1 s2'.2
  have s4 := pairwise_step
    (fun e (he : e ∈ nirissOutdirCell fs outdir) => mem_nirissOutdirCell he)
    (by omega) s3.1 s3.2
  have s5 := pairwise_step
    (fun e (he : e ∈ nirissDownloadCell fs) => mem_nirissDownloadCell he)
    (by omega) s4.1 s4.2
  exact s5.1

/-- Inside the NIRISS pipeline loop, the Detector1 run on an input file
appears before the Image2 run on its rate product, anywhere in the full
notebook trace. -/
lemma block_sublist_trace (fs : FS) (outdir datasuperdir : String)
    (datafiles : List String) {df : String} (hdf : df ∈ datafiles) :
    List.Sublist
      [Event.runStage "Detector1" df,
       Event.runStage "Image2"
         (outdir ++ "/" ++ pyReplace (pathName df) "uncal" "rate")]
      (nirissNotebook fs outdir datasuperdir datafiles) := by
  obtain ⟨s, t, rfl⟩ := List.append_of_mem hdf
  have hpart : nirissPipelineCell outdir (s ++ df :: t) =
      s.flatMap (nirissPipelineBlock outdir) ++
        (nirissPipelineBlock outdir df ++ t.flatMap (nirissPipelineBlock outdir)) := by
    rw [nirissPipelineCell, List.flatMap_append, List.flatMap_cons]
  have h1 : List.Sublist
      [Event.runStage "Detector1" df,
       Event.runStage "Image2"
         (outdir ++ "/" ++ pyReplace (pathName df) "uncal" "rate")]
      (nirissPipelineBlock outdir df) :=
    List.Sublist.cons₂ _ (List.Sublist.cons₂ _ (List.nil_sublist _))
  have h2 : List.Sublist
      [Event.runStage "Detector1" df,
       Event.runStage "Image2"
         (outdir ++ "/" ++ pyReplace (pathName df) "uncal" "rate")]
      (nirissPipelineCell outdir (s ++ df :: t)) := by
    rw [hpart]
    exact (h1.trans (List.sublist_append_left _ _)).trans
      (List.sublist_append_right _ _)
  unfold nirissNotebook
  simp only [List.append_assoc]
  exact h2.trans (((List.sublist_append_left _ _).trans
    (List.sublist_append_right _ _)).trans (List.sublist_append_right _ _))

lemma headerFixStep_ok {f : String} (ra dec : Int) (fs : FitsFS) {out : String}
    (hfix : fixOutName f = .ok out) {hdu : FitsFile} (hf : fs f = some hdu) :
    headerFixStep ra dec fs f = .ok fun n =>
      if n = out then some { hdu with srctype := "POINT", targRa := ra, targDec := dec }
      else fs n := by
  unfold headerFixStep
  rw [hfix]
  simp only [bind, Except.bind, hf, pure, Except.pure]

/-- The header-fix loop succeeds on parseable, present inputs; it writes
exactly the `_fix` copies (with SRCTYPE/TARG_RA/TARG_DEC set and the rest
of the file carried over) and leaves every other name unchanged. -/
lemma headerFixCell_frame (ra dec : Int) :
    ∀ (files : List String) (fs : FitsFS),
      (∀ f ∈ files, pyCount f "." = 1) →
      (∀ f ∈ files, (fs f).isSome = true) →
      (∀ f ∈ files, ∀ g ∈ files, ∀ o, fixOutName g = .ok o → o ≠ f) →
      (∀ f ∈ files, ∀ g ∈ files, ∀ o o2,
        fixOutName f = .ok o → fixOutName g = .ok o2 → f ≠ g → o ≠ o2) →
      files.Nodup →
      ∃ fs2, headerFixCell ra dec files fs = .ok fs2 ∧
        (∀ n, (∀ g ∈ files, ∀ o, fixOutName g = .ok o → n ≠ o) → fs2 n = fs n) ∧
        (∀ f ∈ files, ∀ o, fixOutName f = .ok o →
          ∃ hdu, fs f = some hdu ∧
            fs2 o =
              some { hdu with srctype := "POINT", targRa := ra, targDec := dec }) := by
  intro files
  induction files with
  | nil =>
    intro fs _ _ _ _ _
    exact ⟨fs, rfl, fun n _ => rfl, fun f hf => absurd hf (List.not_mem_nil f)⟩
  | cons f rest ih =>
    intro fs hcount hopen hsep hdist hnodup
    obtain ⟨b, r, hbr, hfix⟩ := fixOutName_ok (hcount f (by simp))
    set out := b ++ "_fix." ++ r with hout
    obtain ⟨hdu, hf⟩ := Option.isSome_iff_exists.mp (hopen f (by simp))
    have hstep := headerFixStep_ok ra dec fs hfix hf
    set fs1 : FitsFS := fun n =>
      if n = out then some { hdu with srctype := "POINT", targRa := ra, targDec := dec }
      else fs n with hfs1
    have hnotin : f ∉ rest := (List.nodup_cons.mp hnodup).1
    obtain ⟨fs2, hok2, hframe2, hcontent2⟩ := ih fs1
      (fun g hg => hcount g (by simp [hg]))
      (fun g hg => by
        by_cases hgo : g = out
        · simp [hfs1, hgo]
        · simpa [hfs1, hgo] using hopen g (by simp [hg]))
      (fun x hx g hg o ho => hsep x (by simp [hx]) g (by simp [hg]) o ho)
      (fun x hx g hg o o2 ho ho2 hne => hdist x (by simp [hx]) g (by simp [hg]) o o2 ho ho2 hne)
      (List.nodup_cons.mp hnodup).2
    refine ⟨fs2, ?_, ?_, ?_⟩
    · show headerFixCell ra dec (f :: rest) fs = .ok fs2
      unfold headerFixCell
      rw [hstep]
      simpa [bind, Except.bind] using hok2
    · intro n hn
      have h1 : fs2 n = fs1 n :=
        hframe2 n fun g hg o ho => hn g (by simp [hg]) o ho
      have h2 : n ≠ out := hn f (by simp) out hfix
      rw [h1, hfs1]
      simp [h2]
    · intro x hx o ho
      rcases List.mem_cons.mp hx with hxf | hxr
      · -- the head file: its copy survives the remaining iterations
        subst hxf
        rw [hfix] at ho
        have ho' : o = out := by simpa using ho.symm
        subst ho'
        refine ⟨hdu, hf, ?_⟩
        have hframe_out : fs2 out = fs1 out := by
          apply hframe2
          intro g hg o2 ho2
          exact hdist x (by simp) g (by simp [hg]) out o2 hfix ho2
            fun hfg => hnotin (hfg ▸ hg)
        rw [hframe_out, hfs1]
        simp
      · -- a later file: its input is untouched by the head write
        obtain ⟨hdu2, hf2, hcont⟩ := hcontent2 x hxr o ho
        have hxout : x ≠ out := Ne.symm (hsep x (by simp [hxr]) f (by simp) out hfix)
        rw [hfs1] at hf2
        simp [hxout] at hf2
        exact ⟨hdu2, hf2, hcont⟩

/-- Success of the Detector1-loop filename parsing, characterised by
Python `str.count`: exactly one `'.'` in the path, exactly one
`'20210413_'` in the path, and exactly one `'_mirisim'` in the part of
the path after the `'20210413_'` (the second field of that split). -/
lemma mrsParseDet1_ok_iff (f : String) :
    isOkE (mrsParseDet1 f) = true ↔
      pyCount f "." = 1 ∧ pyCount f "20210413_" = 1 ∧
      pyCount ((pySplit f "20210413_").getD 1 "") "_mirisim" = 1 := by
  unfold mrsParseDet1
  cases h1 : unpack2 (pySplit f ".") with
  | error e1 =>
    have hno : ¬ pyCount f "." = 1 := fun hc => by
      have := (unpack2_pySplit_iff f ".").mpr hc
      rw [h1] at this
      simp [isOkE] at this
    simp [bind, Except.bind, isOkE, hno]
  | ok v1 =>
    have hc1 : pyCount f "." = 1 := (unpack2_pySplit_iff f ".").mp (by rw [h1]; rfl)
    simp only [bind, Except.bind]
    cases h2 : unpack2 (pySplit f "20210413_") with
    | error e2 =>
      have hno : ¬ pyCount f "20210413_" = 1 := fun hc => by
        have := (unpack2_pySplit_iff f "20210413_").mpr hc
        rw [h2] at this
        simp [isOkE] at this
      simp [isOkE, hno, hc1]
    | ok v2 =>
      have hc2 : pyCount f "20210413_" = 1 :=
        (unpack2_pySplit_iff f "20210413_").mp (by rw [h2]; rfl)
      have hget : (pySplit f "20210413_")[1]?.getD "" = v2.2 := by
        rw [unpack2_ok_shape h2]
        rfl
      cases h3 : unpack2 (pySplit v2.2 "_mirisim") with
      | error e3 =>
        have hno : ¬ pyCount v2.2 "_mirisim" = 1 := fun hc => by
          have := (unpack2_pySplit_iff v2.2 "_mirisim").mpr hc
          rw [h3] at this
          simp [isOkE] at this
        simp [isOkE, hc1, hc2, hget, hno, h3]
      | ok v3 =>
        have hc3 : pyCount v2.2 "_mirisim" = 1 :=
          (unpack2_pySplit_iff v2.2 "_mirisim").mp (by rw [h3]; rfl)
        simp [isOkE, pure, Except.pure, hc1, hc2, hget, hc3, h3]

/-! ## Concrete instances used by witnesses -/

/-- A filesystem on which every path exists. -/
def demoAllPresent : FS := fun _ => some "present"

/-- An empty filesystem. -/
def demoMissing : FS := fun _ => none

/-- A filesystem holding only the NIRISS zip archive. -/
def demoZipOnly : FS := fun n => if n = nirissZip then some "zip" else none

/-- An extraction oracle producing nothing. -/
def demoExt : String → String → Option String := fun _ _ => none

/-- A well-formed MRS Detector1 input path. -/
def goodShort : String :=
  "20210413_120546_mirisim/det_images/det_image_seq1_MIRIFUSHORTexp1.fits"

/-- A glob-compatible MRS input path on which the Detector1-loop parsing
succeeds although the path contains two occurrences of `'_mirisim'`
(one of them straddling the end of the leading `'20210413_'`). -/
def c10bad : String := "20210413_mirisim_mirisim/det_images/aMIRIFUSHORT.fits"

/-- A FITS filesystem holding one calibrated image. -/
def demoFitsFS : FitsFS := fun n =>
  if n = "det_image_1_cal.fits" then some ⟨"EXTENDED", 0, 0, 7⟩ else none

lemma mrs_dests_nodup (fs : FS) : (retrieveDests (mrsDownloadCell fs)).Nodup := by
  cases h1 : fsExists fs tgz1 <;> cases h2 : fsExists fs tgz2 <;>
    cases h3 : fsExists fs tgz3 <;>
    simp only [mrsDownloadCell, h1, h2, h3, if_true, if_false, Bool.false_eq_true] <;>
    decide

lemma niriss_dests_nodup (fs : FS) :
    (retrieveDests (nirissDownloadCell fs)).Nodup := by
  cases h : fsExists fs nirissZip <;>
    simp only [nirissDownloadCell, h, if_true, if_false, Bool.false_eq_true] <;>
    decide

/-! ## Claim theorems -/

/-- C1: for every dataset archive the notebook downloads only when no
file of that name exists on disk: with the archive present the download
cell performs no retrieval of it and leaves its content unchanged; with
it absent, exactly one retrieval of that archive is performed.  Stated
for the three MRS tarballs and for the NIRISS zip. -/
theorem c1_download_guard (fs : FS) (ext : String → String → Option String)
    (a : String) (ha : a = tgz1 ∨ a = tgz2 ∨ a = tgz3) :
    (fsExists fs a = true →
      retrievalsOf a (mrsDownloadCell fs) = [] ∧
      applyTrace ext fs (mrsDownloadCell fs) (normP a) = fs (normP a)) ∧
    (fsExists fs a = false → (retrievalsOf a (mrsDownloadCell fs)).length = 1) ∧
    (fsExists fs nirissZip = true →
      retrievalsOf nirissZip (nirissDownloadCell fs) = [] ∧
      applyTrace ext fs (nirissDownloadCell fs) (normP nirissZip) =
        fs (normP nirissZip)) ∧
    (fsExists fs nirissZip = false →
      (retrievalsOf nirissZip (nirissDownloadCell fs)).length = 1) := by
  refine ⟨?_, ?_, ?_, ?_⟩
  · intro hex
    rcases ha with rfl | rfl | rfl
    · cases h2 : fsExists fs tgz2 <;> cases h3 : fsExists fs tgz3 <;>
        refine ⟨by simp only [mrsDownloadCell, hex, h2, h3, if_true, if_false,
                    Bool.false_eq_true]; decide, ?_⟩ <;>
        simp only [mrsDownloadCell, hex, h2, h3, if_true, if_false,
          Bool.false_eq_true, applyTrace, List.foldl, List.nil_append,
          List.append_nil, List.cons_append, applyEvent] <;>
        repeat rw [if_neg (by decide)]
    · cases h1 : fsExists fs tgz1 <;> cases h3 : fsExists fs tgz3 <;>
        refine ⟨by simp only [mrsDownloadCell, hex, h1, h3, if_true, if_false,
                    Bool.false_eq_true]; decide, ?_⟩ <;>
        simp only [mrsDownloadCell, hex, h1, h3, if_true, if_false,
          Bool.false_eq_true, applyTrace, List.foldl, List.nil_append,
          List.append_nil, List.cons_append, applyEvent] <;>
        repeat rw [if_neg (by decide)]
    · cases h1 : fsExists fs tgz1 <;> cases h2 : fsExists fs tgz2 <;>
        refine ⟨by simp only [mrsDownloadCell, hex, h1, h2, if_true, if_false,
                    Bool.false_eq_true]; decide, ?_⟩ <;>
        simp only [mrsDownloadCell, hex, h1, h2, if_true, if_false,
          Bool.false_eq_true, applyTrace, List.foldl, List.nil_append,
          List.append_nil, List.cons_append, applyEvent] <;>
        repeat rw [if_neg (by decide)]
  · intro hex
    rcases ha with rfl | rfl | rfl <;>
      [cases h2 : fsExists fs tgz2 <;> cases h3 : fsExists fs tgz3 <;>
        simp only [mrsDownloadCell, hex, h2, h3, if_true, if_false,
          Bool.false_eq_true] <;> decide;
       cases h1 : fsExists fs tgz1 <;> cases h3 : fsExists fs tgz3 <;>
        simp only [mrsDownloadCell, hex, h1, h3, if_true, if_false,
          Bool.false_eq_true] <;> decide;
       cases h1 : fsExists fs tgz1 <;> cases h2 : fsExists fs tgz2 <;>
        simp only [mrsDownloadCell, hex, h1, h2, if_true, if_false,
          Bool.false_eq_true] <;> decide]
  · intro hz
    refine ⟨by simp only [nirissDownloadCell, hz, if_true]; rfl, ?_⟩
    simp only [nirissDownloadCell, hz, if_true, applyTrace, List.foldl]
  · intro hz
    simp only [nirissDownloadCell, hz, if_false, Bool.false_eq_true]
    decide

/-- C1 witness: with the first MRS archive on disk no retrieval of it is
made; with the NIRISS zip absent exactly one retrieval of it is made. -/
theorem c1_download_guard_witness :
    retrievalsOf tgz1 (mrsDownloadCell demoAllPresent) = [] ∧
    (retrievalsOf nirissZip (nirissDownloadCell demoMissing)).length = 1 :=
  ⟨((c1_download_guard demoAllPresent demoExt tgz1 (Or.inl rfl)).1
      (by decide)).1,
   (c1_download_guard demoMissing demoExt tgz1 (Or.inl rfl)).2.2.2 (by decide)⟩

/-- C2: each pipeline-stage loop runs its stage exactly once per file of
its input list, in list order, and on no other file: the list of inputs
handed to the stage equals the loop's input list (NIRISS Detector1 loop
unconditionally; MRS Detector1/Spec2 loops under success of their
filename parsing), and under `Nodup` each file is run exactly once. -/
theorem c2_loop_once_per_file (outdir : String)
    (datafiles shortfiles short2files : List String)
    (hshort : ∀ f ∈ shortfiles, isOkE (mrsParseDet1 f) = true)
    (hshort2 : ∀ f ∈ short2files, pyCount f "." = 1) :
    runsOf "Detector1" (nirissPipelineCell outdir datafiles) = datafiles ∧
    runsOf "Detector1" (runLoop mrsDet1Body shortfiles).1 = shortfiles ∧
    (runLoop mrsDet1Body shortfiles).2 = none ∧
    runsOf "Spec2" (runLoop mrsSpec2Body short2files).1 = short2files ∧
    (runLoop mrsSpec2Body short2files).2 = none ∧
    (∀ f, f ∉ datafiles → f ∉ runsOf "Detector1" (nirissPipelineCell outdir datafiles)) ∧
    (∀ f, datafiles.Nodup → f ∈ datafiles →
      (runsOf "Detector1" (nirissPipelineCell outdir datafiles)).count f = 1) := by
  have hdet := runsOf_niriss outdir datafiles
  refine ⟨hdet, runsOf_mrsDet1 shortfiles hshort, ?_,
    runsOf_mrsSpec2 short2files hshort2, ?_, ?_, ?_⟩
  · rw [runLoop_ok mrsDet1Body shortfiles
      fun f hf => by rw [det1Body_ok (hshort f hf)]]
  · rw [runLoop_ok mrsSpec2Body short2files
      fun f hf => by rw [spec2Body_ok (hshort2 f hf)]]
  · intro f hf
    rw [hdet]
    exact hf
  · intro f hnd hf
    rw [hdet]
    have hle := List.nodup_iff_count_le_one.mp hnd f
    have hge := List.count_pos_iff.mpr hf
    omega

/-- C2 witness at a one-file NIRISS list and a one-file MRS list. -/
theorem c2_loop_once_per_file_witness :
    runsOf "Detector1"
      (nirissPipelineCell "pipeline_calibrated_data" ["a_uncal.fits"]) =
      ["a_uncal.fits"] ∧
    runsOf "Detector1" (runLoop mrsDet1Body [goodShort]).1 = [goodShort] := by
  have h := c2_loop_once_per_file "pipeline_calibrated_data" ["a_uncal.fits"]
    [goodShort] [hardShort] (by intro f hf; simp at hf; subst hf; decide)
    (by intro f hf; simp at hf; subst hf; decide)
  exact ⟨h.1, h.2.1⟩

/-- C3 counterexample: the `cube_build.skip` flag of the MRS Spec2 loop
depends on the identity of the current input file — it is left unskipped
exactly for one hardcoded filename and set for every other file, so the
claim that no stage configuration flag depends on the input is false. -/
theorem c3_counterexample :
    (mrsSpec2Config hardShort hardShort).map Spec2Config.cubeBuildSkip =
      .ok false ∧
    (mrsSpec2Config hardShort
        "det_image_seq2_MIRIFUSHORT_12LONGexp1125354_rate.fits").map
      Spec2Config.cubeBuildSkip = .ok true := by
  constructor <;> rfl

/-- C3 (amended): the notebooks' only branching beyond loop iteration and
skip-download checks is the per-file `cube_build.skip` decision of the
MRS Spec2 loops: the flag equals `false` exactly on the loop's hardcoded
filename; every other stage flag is a constant independent of the input
(`straylight.skip`, `extract_1d.skip`, `refpix.skip` in the MRS notebook,
and the whole Detector1/Image2 configurations in the NIRISS notebook). -/
theorem c3_branching_amended (f g outdir : String) :
    (∀ c, mrsSpec2Config hardShort f = .ok c →
      c.straylightSkip = true ∧ c.extract1dSkip = true ∧
      (c.cubeBuildSkip = false ↔ f = hardShort)) ∧
    (∀ c, mrsSpec2Config hardLong f = .ok c →
      c.straylightSkip = true ∧ c.extract1dSkip = true ∧
      (c.cubeBuildSkip = false ↔ f = hardLong)) ∧
    (∀ d, mrsDet1Config f = .ok d → d.refpixSkip = true) ∧
    nirissDet1ConfigOf outdir f = nirissDet1ConfigOf outdir g ∧
    nirissImage2ConfigOf outdir f = nirissImage2ConfigOf outdir g := by
  refine ⟨?_, ?_, ?_, rfl, rfl⟩
  · intro c hc
    unfold mrsSpec2Config at hc
    cases hu : unpack2 (pySplit f ".") with
    | error e => rw [hu] at hc; simp [bind, Except.bind] at hc
    | ok v =>
      rw [hu] at hc
      simp only [bind, Except.bind, pure, Except.pure, Except.ok.injEq] at hc
      subst hc
      refine ⟨rfl, rfl, ?_⟩
      simp [bne]
  · intro c hc
    unfold mrsSpec2Config at hc
    cases hu : unpack2 (pySplit f ".") with
    | error e => rw [hu] at hc; simp [bind, Except.bind] at hc
    | ok v =>
      rw [hu] at hc
      simp only [bind, Except.bind, pure, Except.pure, Except.ok.injEq] at hc
      subst hc
      refine ⟨rfl, rfl, ?_⟩
      simp [bne]
  · intro d hd
    unfold mrsDet1Config at hd
    cases hp : mrsParseDet1 f with
    | error e => rw [hp] at hd; simp [bind, Except.bind] at hd
    | ok v =>
      rw [hp] at hd
      simp only [bind, Except.bind, pure, Except.pure, Except.ok.injEq] at hd
      subst hd
      rfl

/-- C3 amended witness: for the hardcoded Spec2 file the cube is built
(`cube_build.skip = false`), and for another file it is skipped. -/
theorem c3_branching_amended_witness :
    (mrsSpec2Config hardShort hardShort).map Spec2Config.cubeBuildSkip =
      .ok false ∧
    (mrsSpec2Config hardShort "det_image_x_rate.fits").map
      Spec2Config.cubeBuildSkip = .ok true := by
  constructor
  · cases hc : mrsSpec2Config hardShort hardShort with
    | error e =>
      have hok : isOkE (mrsSpec2Config hardShort hardShort) = true := by decide
      rw [hc] at hok
      simp [isOkE] at hok
    | ok c =>
      have h := ((c3_branching_amended hardShort hardShort "o").1 c hc).2.2.mpr rfl
      simp [Except.map, hc, h]
  · cases hc : mrsSpec2Config hardShort "det_image_x_rate.fits" with
    | error e =>
      have hok : isOkE (mrsSpec2Config hardShort "det_image_x_rate.fits") = true := by
        decide
      rw [hc] at hok
      simp [isOkE] at hok
    | ok c =>
      have hiff :=
        ((c3_branching_amended "det_image_x_rate.fits" hardShort "o").1 c hc).2.2
      have hne : ¬ ("det_image_x_rate.fits" = hardShort) := by decide
      cases hb : c.cubeBuildSkip with
      | false => exact absurd (hiff.mp hb) hne
      | true => simp [Except.map, hc, hb]

/-- C8: in the NIRISS download cell the zip is extracted only in the
branch where it was just downloaded: with the archive on disk the cell
performs no extraction — even when the extracted data directory does not
exist — while with the archive absent it retrieves and extracts it. -/
theorem c8_extract_only_with_download (fs : FS)
    (hzip : fsExists fs nirissZip = true)
    (hdir : fsExists fs "niriss_ami_binary2_inflight" = false) :
    extractsOf (nirissDownloadCell fs) = [] ∧
    (∀ fs2, fsExists fs2 nirissZip = false →
      nirissDownloadCell fs2 = [.retrieve boxlink nirissZip, .extract nirissZip]) := by
  constructor
  · simp only [nirissDownloadCell, hzip, if_true]
    rfl
  · intro fs2 h2
    simp only [nirissDownloadCell, h2, Bool.false_eq_true, if_false]

/-- C8 witness: the zip exists but the extracted directory does not, and
no extraction happens. -/
theorem c8_extract_only_with_download_witness :
    extractsOf (nirissDownloadCell demoZipOnly) = [] :=
  (c8_extract_only_with_download demoZipOnly (by decide) (by decide)).1

/-- C10 counterexample: a glob-compatible input path on which all three
tuple unpackings of the MRS Detector1 loop succeed although the path
contains two occurrences of `'_mirisim'` (while `'.'` and `'20210413_'`
each occur once) — refuting "succeeds only when the path contains exactly
one occurrence of `'_mirisim'`". -/
theorem c10_counterexample :
    isOkE (mrsParseDet1 c10bad) = true ∧
    pyCount c10bad "_mirisim" = 2 ∧
    pyCount c10bad "." = 1 ∧
    pyCount c10bad "20210413_" = 1 := by
  decide

/-- C10 (amended): the Detector1-loop parsing succeeds exactly when the
path contains exactly one `'.'`, exactly one `'20210413_'`, and the part
of the path after the `'20210413_'` (the second field of that split)
contains exactly one `'_mirisim'`; the Spec2-loop and header-fix-loop
parsings succeed exactly when the path contains exactly one `'.'`; on any
violating filename the loop raises ValueError before the stage's `run`
(or the write) is reached, performing no event for that file. -/
theorem c10_parse_amended (f : String) :
    (isOkE (mrsParseDet1 f) = true ↔
      pyCount f "." = 1 ∧ pyCount f "20210413_" = 1 ∧
      pyCount ((pySplit f "20210413_").getD 1 "") "_mirisim" = 1) ∧
    (isOkE (mrsParseDet1 f) = false → mrsDet1Body f = ([], some "ValueError")) ∧
    (isOkE (unpack2 (pySplit f ".")) = true ↔ pyCount f "." = 1) ∧
    (pyCount f "." ≠ 1 →
      mrsSpec2Body f = ([], some "ValueError") ∧
      mrsHeaderFixBody f = ([], some "ValueError")) :=
  ⟨mrsParseDet1_ok_iff f, fun h => det1Body_error h, unpack2_pySplit_iff f ".",
   fun h => ⟨spec2Body_error h, headerFixBody_error h⟩⟩

/-- C10 amended witness: a dot-free filename makes every loop raise
ValueError with no stage run performed. -/
theorem c10_parse_amended_witness :
    mrsDet1Body "nodots" = ([], some "ValueError") ∧
    mrsSpec2Body "nodots" = ([], some "ValueError") := by
  refine ⟨(c10_parse_amended "nodots").2.1 (by decide), ?_⟩
  exact ((c10_parse_amended "nodots").2.2.2 (by decide)).1

/-- `str.replace` of `'uncal'` on a name of the form `base_uncal.fits`
whose only `'uncal'` occurrence is the suffix one. -/
lemma pyReplace_uncal (base rep : String)
    (huniq : ∀ i, i < base.length + 1 →
      ("uncal".data.isPrefixOf ((base ++ "_uncal.fits").data.drop i)) = false) :
    pyReplace (base ++ "_uncal.fits") "uncal" rep = base ++ "_" ++ rep ++ ".fits" := by
  have hsplit : base ++ "_uncal.fits" = base ++ "_" ++ "uncal" ++ ".fits" := by
    apply str_ext
    show base.data ++ "_uncal.fits".data =
      ((base.data ++ "_".data) ++ "uncal".data) ++ ".fits".data
    simp only [List.append_assoc]
    rfl
  rw [hsplit]
  apply pyReplace_concat (base ++ "_") "uncal" ".fits" rep (by decide)
  · intro i hi
    have hlen : (base ++ "_").length = base.length + 1 := by
      show (base.data ++ "_".data).length = base.data.length + 1
      rw [List.length_append]
      rfl
    rw [hlen] at hi
    have h := huniq i hi
    rw [show base ++ "_" ++ "uncal" ++ ".fits" = base ++ "_uncal.fits" from hsplit.symm]
    exact h
  · intro i hi
    revert i
    decide

lemma writesOf_append (a b : List Event) :
    writesOf (a ++ b) = writesOf a ++ writesOf b :=
  List.filterMap_append _ _ _

lemma writesOf_flatMap_nil (body : String → List Event)
    (hb : ∀ f, writesOf (body f) = []) :
    ∀ l : List String, writesOf (l.flatMap body) = [] := by
  intro l
  induction l with
  | nil => rfl
  | cons a t ih =>
    rw [List.flatMap_cons, writesOf_append, hb, ih]
    rfl

lemma writesOf_flatMap_dist (body : String → List Event) :
    ∀ l : List String,
      writesOf (l.flatMap body) = l.flatMap fun f => writesOf (body f) := by
  intro l
  induction l with
  | nil => rfl
  | cons a t ih => rw [List.flatMap_cons, List.flatMap_cons, writesOf_append, ih]

lemma flatMap_det1_ok {l : List String}
    (h : ∀ g ∈ l, isOkE (mrsParseDet1 g) = true) :
    (l.flatMap fun g => (mrsDet1Body g).1) =
      l.flatMap fun g => [Event.runStage "Detector1" g] := by
  induction l with
  | nil => rfl
  | cons a t ih =>
    rw [List.flatMap_cons, List.flatMap_cons, det1Body_ok (h a (by simp)),
      ih fun g hg => h g (by simp [hg])]

lemma writesOf_det1Body (f : String) : writesOf (mrsDet1Body f).1 = [] := by
  unfold mrsDet1Body
  cases mrsParseDet1 f <;> rfl

lemma writesOf_spec2Body (f : String) : writesOf (mrsSpec2Body f).1 = [] := by
  unfold mrsSpec2Body
  cases unpack2 (pySplit f ".") <;> rfl

lemma writesOf_mrsDownloadCell (fs : FS) : writesOf (mrsDownloadCell fs) = [] := by
  cases h1 : fsExists fs tgz1 <;> cases h2 : fsExists fs tgz2 <;>
    cases h3 : fsExists fs tgz3 <;>
    simp only [mrsDownloadCell, h1, h2, h3, if_true, if_false, Bool.false_eq_true] <;>
    decide

lemma writesOf_mrsUntarCell (fs : FS) : writesOf (mrsUntarCell fs) = [] := by
  cases h1 : fsExists fs dir1 <;> cases h2 : fsExists fs dir2 <;>
    cases h3 : fsExists fs dir3 <;>
    simp only [mrsUntarCell, h1, h2, h3, if_true, if_false, Bool.false_eq_true] <;>
    decide

lemma writesOf_nirissDownloadCell (fs : FS) :
    writesOf (nirissDownloadCell fs) = [] := by
  cases h : fsExists fs nirissZip <;>
    simp only [nirissDownloadCell, h, if_true, if_false, Bool.false_eq_true] <;>
    decide

lemma writesOf_nirissOutdirCell (fs : FS) (outdir : String) :
    writesOf (nirissOutdirCell fs outdir) = [] := by
  unfold nirissOutdirCell
  split <;> rfl

/-! ## Remaining claim theorems -/

/-- C4: output names follow the external pipeline's suffix scheme.  For a
NIRISS input named `base_uncal.fits` (with no stray `'uncal'`), the loop
runs Detector1 on it and Image2 on `outdir/base_rate.fits` and
`outdir/base_rateints.fits` derived by replacing the `'uncal'` suffix;
every ImPlaneIA fringe-fitting call writes under `Saveoit` and `Saveoif`;
and the MRS cells glob for `_rate.fits` stage-1 products, hardcode the
`_s3d.fits` cubes, and glob `_cal.fits` files for the header fix. -/
theorem c4_suffix_scheme (outdir datasuperdir df base : String)
    (hname : pathName df = base ++ "_uncal.fits")
    (huniq : ∀ i, i < base.length + 1 →
      ("uncal".data.isPrefixOf ((base ++ "_uncal.fits").data.drop i)) = false) :
    nirissPipelineBlock outdir df =
      [.runStage "Detector1" df,
       .runStage "Image2" (outdir ++ "/" ++ (base ++ "_rate.fits")),
       .runStage "Image2" (outdir ++ "/" ++ (base ++ "_rateints.fits"))] ∧
    (∀ (files : List String) (inp oit oif : String),
      Event.fitFringes inp oit oif ∈ implaneiaCell datasuperdir files →
      oit = datasuperdir ++ "/Saveoit" ∧ oif = datasuperdir ++ "/Saveoif") ∧
    "_rate.fits".data.isSuffixOf mrsSpec2ShortGlob.data = true ∧
    "_rate.fits".data.isSuffixOf mrsSpec2LongGlob.data = true ∧
    "_s3d.fits".data.isSuffixOf sCubeFile.data = true ∧
    "_s3d.fits".data.isSuffixOf lCubeFile.data = true ∧
    "_cal.fits".data.isSuffixOf mrsCalGlob.data = true := by
  refine ⟨?_, ?_, by decide, by decide, by decide, by decide, by decide⟩
  · have hrate : base ++ "_" ++ "rate" ++ ".fits" = base ++ "_rate.fits" := by
      apply str_ext
      show ((base.data ++ "_".data) ++ "rate".data) ++ ".fits".data =
        base.data ++ "_rate.fits".data
      simp only [List.append_assoc]
      rfl
    have hrateints : base ++ "_" ++ "rateints" ++ ".fits" = base ++ "_rateints.fits" := by
      apply str_ext
      show ((base.data ++ "_".data) ++ "rateints".data) ++ ".fits".data =
        base.data ++ "_rateints.fits".data
      simp only [List.append_assoc]
      rfl
    unfold nirissPipelineBlock
    rw [hname, pyReplace_uncal base "rate" huniq,
      pyReplace_uncal base "rateints" huniq, hrate, hrateints]
  · intro files inp oit oif h
    rw [implaneiaCell, List.mem_flatMap] at h
    obtain ⟨f, _, he⟩ := h
    simp only [implaneiaBlock, List.mem_cons, List.not_mem_nil, or_false] at he
    rcases he with he | he | he
    · exact Event.noConfusion he
    · exact Event.noConfusion he
    · injection he with h1 h2 h3
      exact ⟨h2, h3⟩

/-- C4 witness at the commissioning AB Dor file name. -/
theorem c4_suffix_scheme_witness :
    nirissPipelineBlock "pipeline_calibrated_data"
        "niriss_ami_binary2_inflight/jw01093012001_03102_00001_nis_uncal.fits" =
      [.runStage "Detector1"
         "niriss_ami_binary2_inflight/jw01093012001_03102_00001_nis_uncal.fits",
       .runStage "Image2"
         "pipeline_calibrated_data/jw01093012001_03102_00001_nis_rate.fits",
       .runStage "Image2"
         "pipeline_calibrated_data/jw01093012001_03102_00001_nis_rateints.fits"] := by
  have h := (c4_suffix_scheme "pipeline_calibrated_data" "d"
    "niriss_ami_binary2_inflight/jw01093012001_03102_00001_nis_uncal.fits"
    "jw01093012001_03102_00001_nis" (by decide) (by decide)).1
  exact h

/-- C5: the phases run strictly in order.  Under success of the filename
parsing, the MRS notebook raises nothing and its trace is sorted by
phase (downloads/extraction, then all Detector1 runs, then all Spec2
runs, then the notebook's own writes, then the Spec3 run); the NIRISS
trace is sorted by phase (download/setup, pipeline-stage runs, bad-pixel
fix, ImPlaneIA fringe fitting, final calibration), and for each input
file its Detector1 run precedes the Image2 run on its rate product. -/
theorem c5_phase_order (fs : FS) (outdir datasuperdir : String)
    (datafiles sf lf s2 l2 cf : List String)
    (h1 : ∀ f ∈ sf, isOkE (mrsParseDet1 f) = true)
    (h2 : ∀ f ∈ lf, isOkE (mrsParseDet1 f) = true)
    (h3 : ∀ f ∈ s2, pyCount f "." = 1)
    (h4 : ∀ f ∈ l2, pyCount f "." = 1)
    (h5 : ∀ f ∈ cf, pyCount f "." = 1) :
    (mrsNotebook fs sf lf s2 l2 cf).2 = none ∧
    List.Pairwise (fun a b => mrsPhase a ≤ mrsPhase b)
      (mrsNotebook fs sf lf s2 l2 cf).1 ∧
    List.Pairwise (fun a b => nirissPhase a ≤ nirissPhase b)
      (nirissNotebook fs outdir datasuperdir datafiles) ∧
    (∀ df ∈ datafiles,
      List.Sublist
        [Event.runStage "Detector1" df,
         Event.runStage "Image2"
           (outdir ++ "/" ++ pyReplace (pathName df) "uncal" "rate")]
        (nirissNotebook fs outdir datasuperdir datafiles)) :=
  ⟨by rw [mrsNotebook_ok fs sf lf s2 l2 cf h1 h2 h3 h4 h5],
   mrsTrace_pairwise fs sf lf s2 l2 cf h1 h2 h3 h4 h5,
   nirissTrace_pairwise fs outdir datasuperdir datafiles,
   fun df hdf => block_sublist_trace fs outdir datasuperdir datafiles hdf⟩

/-- C5 witness: a concrete one-file run of the MRS notebook completes
with no exception. -/
theorem c5_phase_order_witness :
    (mrsNotebook demoAllPresent [goodShort] [] [] []
      ["det_image_1_cal.fits"]).2 = none :=
  (c5_phase_order demoAllPresent "o" "d" [] [goodShort] [] [] []
    ["det_image_1_cal.fits"] (by decide) (by simp) (by simp) (by simp)
    (by decide)).1

/-- C6: no error handling exists.  A parse failure in the MRS Detector1
loop propagates out of the cell as an uncaught ValueError: the loop stops
at the first failing file, the files after it are never processed, and
nothing is retried.  Moreover each external call is attempted at most
once: every retrieval destination occurs at most once in a download
cell's trace, and (for duplicate-free globbed lists) each file is handed
to a pipeline stage at most once. -/
theorem c6_no_error_handling (fs : FS) (pre post : List String) (f : String)
    (hpre : ∀ g ∈ pre, isOkE (mrsParseDet1 g) = true)
    (hf : isOkE (mrsParseDet1 f) = false) :
    runLoop mrsDet1Body (pre ++ f :: post) =
      ((pre.flatMap fun g => [Event.runStage "Detector1" g]), some "ValueError") ∧
    (∀ d, (retrieveDests (mrsDownloadCell fs)).count d ≤ 1) ∧
    (∀ d, (retrieveDests (nirissDownloadCell fs)).count d ≤ 1) ∧
    (∀ (files : List String) (g : String), files.Nodup →
      (∀ x ∈ files, isOkE (mrsParseDet1 x) = true) →
      (runsOf "Detector1" (runLoop mrsDet1Body files).1).count g ≤ 1) ∧
    (∀ (odir : String) (files : List String) (g : String), files.Nodup →
      (runsOf "Detector1" (nirissPipelineCell odir files)).count g ≤ 1) := by
  refine ⟨?_, ?_, ?_, ?_, ?_⟩
  · have herr : (mrsDet1Body f).2 ≠ none := by
      rw [det1Body_error hf]
      simp
    have h := runLoop_error mrsDet1Body pre f post
      (fun g hg => by rw [det1Body_ok (hpre g hg)]) herr
    rw [det1Body_error hf] at h
    rw [flatMap_det1_ok hpre] at h
    simpa using h
  · intro d
    exact List.nodup_iff_count_le_one.mp (mrs_dests_nodup fs) d
  · intro d
    exact List.nodup_iff_count_le_one.mp (niriss_dests_nodup fs) d
  · intro files g hnd hok
    rw [runsOf_mrsDet1 files hok]
    exact List.nodup_iff_count_le_one.mp hnd g
  · intro odir files g hnd
    rw [runsOf_niriss odir files]
    exact List.nodup_iff_count_le_one.mp hnd g

/-- C6 witness: the loop on a single malformed filename raises
ValueError and performs no stage run. -/
theorem c6_no_error_handling_witness :
    runLoop mrsDet1Body ["nodots"] = ([], some "ValueError") := by
  have h := (c6_no_error_handling demoMissing [] [] "nodots"
    (by simp) (by decide)).1
  simpa using h

/-- C7 counterexample: run concretely, the MRS notebook itself writes
persistent files — a header-fixed `_fix.fits` copy and the association
file `for_spec3_all.json` — contradicting the claim that the notebooks
create no persistent files of their own. -/
theorem c7_counterexample :
    writesOf (mrsNotebook demoAllPresent [] [] [] []
        ["det_image_1_cal.fits"]).1 =
      ["det_image_1_cal_fix.fits", "for_spec3_all.json"] ∧
    writesOf (mrsNotebook demoAllPresent [] [] [] []
        ["det_image_1_cal.fits"]).1 ≠ [] := by
  constructor
  · decide
  · decide

/-- C7 (amended): all persistent entities are files on disk; the
notebooks pass them between external tools, except that the MRS notebook
itself writes exactly the header-fixed `_fix` copies of the globbed
`_cal.fits` files and the association file `for_spec3_all.json`, while
the NIRISS notebook writes no file of its own. -/
theorem c7_persistence_amended (fs : FS) (outdir datasuperdir : String)
    (datafiles sf lf s2 l2 cf : List String)
    (h1 : ∀ f ∈ sf, isOkE (mrsParseDet1 f) = true)
    (h2 : ∀ f ∈ lf, isOkE (mrsParseDet1 f) = true)
    (h3 : ∀ f ∈ s2, pyCount f "." = 1)
    (h4 : ∀ f ∈ l2, pyCount f "." = 1)
    (h5 : ∀ f ∈ cf, pyCount f "." = 1) :
    (∀ w ∈ writesOf (mrsNotebook fs sf lf s2 l2 cf).1,
      w = asnName ∨ ∃ f ∈ cf, fixOutName f = .ok w) ∧
    asnName ∈ writesOf (mrsNotebook fs sf lf s2 l2 cf).1 ∧
    writesOf (nirissNotebook fs outdir datasuperdir datafiles) = [] := by
  have hmrs : writesOf (mrsNotebook fs sf lf s2 l2 cf).1 =
      (cf.flatMap fun f => writesOf (mrsHeaderFixBody f).1) ++ [asnName] := by
    rw [mrsNotebook_ok fs sf lf s2 l2 cf h1 h2 h3 h4 h5]
    simp only [writesOf_append, writesOf_mrsDownloadCell, writesOf_mrsUntarCell,
      writesOf_flatMap_nil (fun f => (mrsDet1Body f).1) writesOf_det1Body,
      writesOf_flatMap_nil (fun f => (mrsSpec2Body f).1) writesOf_spec2Body,
      List.nil_append]
    rw [writesOf_flatMap_dist (fun f => (mrsHeaderFixBody f).1) cf]
    rfl
  refine ⟨?_, ?_, ?_⟩
  · intro w hw
    rw [hmrs] at hw
    rcases List.mem_append.mp hw with hw | hw
    · rw [List.mem_flatMap] at hw
      obtain ⟨f, hfcf, hwf⟩ := hw
      right
      refine ⟨f, hfcf, ?_⟩
      obtain ⟨o, ho, hbody⟩ := headerFixBody_ok (h5 f hfcf)
      rw [hbody] at hwf
      simp [writesOf] at hwf
      rw [hwf]
      exact ho
    · left
      simpa using hw
  · rw [hmrs]
    exact List.mem_append.mpr (Or.inr (by simp))
  · unfold nirissNotebook nirissPipelineCell implaneiaCell
    rw [writesOf_append, writesOf_append, writesOf_append, writesOf_append,
      writesOf_append, writesOf_nirissDownloadCell, writesOf_nirissOutdirCell,
      writesOf_flatMap_nil (nirissPipelineBlock outdir) (fun f => rfl) datafiles,
      writesOf_flatMap_nil (implaneiaBlock datasuperdir) (fun f => rfl) mirdatafiles]
    rfl

/-- C7 amended witness: the association file is among the MRS notebook's
own writes on a concrete run. -/
theorem c7_persistence_amended_witness :
    asnName ∈ writesOf (mrsNotebook demoAllPresent [] [] [] []
      ["det_image_1_cal.fits"]).1 :=
  (c7_persistence_amended demoAllPresent "o" "d" [] [] [] [] []
    ["det_image_1_cal.fits"] (by simp) (by simp) (by simp) (by simp)
    (by decide)).2.1

/-- C9: the header-fix step is non-destructive.  On parseable, present,
duplicate-free inputs whose `_fix` outputs collide neither with the
inputs nor with each other, the cell succeeds; each input file is left
unchanged; for each input `base.ext` the file `base_fix.ext` afterwards
holds the input's content with SRCTYPE set to POINT and TARG_RA/TARG_DEC
set to the detected source coordinates (overwriting any previous file of
that name); and no other name is touched. -/
theorem c9_header_fix (ra dec : Int) (files : List String) (fs : FitsFS)
    (hcount : ∀ f ∈ files, pyCount f "." = 1)
    (hopen : ∀ f ∈ files, (fs f).isSome = true)
    (hsep : ∀ f ∈ files, ∀ g ∈ files, ∀ o, fixOutName g = .ok o → o ≠ f)
    (hdist : ∀ f ∈ files, ∀ g ∈ files, ∀ o o2,
      fixOutName f = .ok o → fixOutName g = .ok o2 → f ≠ g → o ≠ o2)
    (hnodup : files.Nodup) :
    ∃ fs2, headerFixCell ra dec files fs = .ok fs2 ∧
      (∀ f ∈ files, fs2 f = fs f) ∧
      (∀ f ∈ files, ∀ o, fixOutName f = .ok o →
        ∃ hdu, fs f = some hdu ∧
          fs2 o =
            some { hdu with srctype := "POINT", targRa := ra, targDec := dec }) ∧
      (∀ n, (∀ g ∈ files, ∀ o, fixOutName g = .ok o → n ≠ o) → fs2 n = fs n) := by
  obtain ⟨fs2, hok, hframe, hcontent⟩ :=
    headerFixCell_frame ra dec files fs hcount hopen hsep hdist hnodup
  exact ⟨fs2, hok,
    fun f hf => hframe f fun g hg o ho => (hsep f hf g hg o ho).symm,
    hcontent, hframe⟩

/-- C9 witness: one concrete calibrated file gets its `_fix` copy with
the three cards set while the original is untouched. -/
theorem c9_header_fix_witness :
    (headerFixCell 1 2 ["det_image_1_cal.fits"] demoFitsFS).map
      (fun fs2 => (fs2 "det_image_1_cal_fix.fits", fs2 "det_image_1_cal.fits")) =
      .ok (some ⟨"POINT", 1, 2, 7⟩, some ⟨"EXTENDED", 0, 0, 7⟩) := by
  have heval : fixOutName "det_image_1_cal.fits" = .ok "det_image_1_cal_fix.fits" := by
    decide
  obtain ⟨fs2, hok, horig, hcontent, _⟩ :=
    c9_header_fix 1 2 ["det_image_1_cal.fits"] demoFitsFS
      (by intro f hf; simp at hf; subst hf; decide)
      (by intro f hf; simp at hf; subst hf; decide)
      (by
        intro f hf g hg o ho
        simp at hf hg
        subst hf
        subst hg
        rw [heval] at ho
        have : o = "det_image_1_cal_fix.fits" := by
          injection ho.symm
        subst this
        decide)
      (by
        intro f hf g hg o o2 ho ho2 hne
        simp at hf hg
        subst hf
        subst hg
        exact absurd rfl hne)
      (by decide)
  rw [hok]
  obtain ⟨hdu, hfs, hout⟩ :=
    hcontent "det_image_1_cal.fits" (by simp) "det_image_1_cal_fix.fits" heval
  have hdemo : demoFitsFS "det_image_1_cal.fits" =
      some ⟨"EXTENDED", 0, 0, 7⟩ := by decide
  rw [hdemo] at hfs
  have hhdu : hdu = ⟨"EXTENDED", 0, 0, 7⟩ := by
    injection hfs.symm
  subst hhdu
  have horig1 := horig "det_image_1_cal.fits" (by simp)
  rw [hdemo] at horig1
  simp only [Except.map, hout, horig1]

end Jdat
